import Mathlib

/-!
# Verification of the `ethernet` package (IEEE 802.3 frame / 802.1Q VLAN codec)

Shallow embedding of the Go sources:

* `src/vlan.go` — the VLAN tag codec (`VLAN.MarshalBinary`, `VLAN.UnmarshalBinary`).
* `src/ethernet.go` (main document, before the separator) — the Frame codec with the
  stripped-VLAN-tag length heuristic: `Frame.MarshalBinary`, `Frame.UnmarshalBinary`.
  In that variant the hardware-address fields are named `DestinationHardwareAddr` /
  `SourceHardwareAddr`; here the single `Frame` structure uses the names
  `Destination` / `Source` shared by the other two variants of the same struct.
* `src/unnamed/part_000` and the second document of `src/ethernet.go` — the revised
  Frame decoder (4-byte check in the VLAN-chain loop, no minimum-payload restriction,
  "robustness principle") embedded as `Frame.UnmarshalBinaryRobust`, plus the FCS
  wrapper `Frame.UnmarshalFCS` and `crc32IEEE`.

Byte buffers are `List Nat`; a Go `[]byte` always holds values `< 256`.  Machine
integers are `Nat` with explicit `% 2 ^ w` at the points where Go's fixed-width
arithmetic can wrap.  Go runtime bounds-check failures (slice index out of range)
are modelled by the explicit `panic` outcome: every slicing operation whose bound
is not already implied by a preceding length test is guarded by the same runtime
check Go performs, and the guard's failure produces `.panic`.
-/

/-- The three error values of the package: `io.ErrUnexpectedEOF`,
`ErrInvalidVLAN` (vlan.go), `ErrInvalidFCS` (ethernet.go, second document). -/
inductive Err where
  | truncated
  | invalidVLAN
  | invalidFCS
deriving DecidableEq, Repr

/-- An IEEE 802.1Q VLAN tag (`type VLAN struct`, src/vlan.go).
`Priority` is Go `uint8`, `ID` is Go `uint16`. -/
structure VLAN where
  Priority : Nat
  DropEligible : Bool
  ID : Nat
deriving DecidableEq, Repr

/-- An IEEE 802.3 Ethernet II frame (`type Frame struct`).  The first document of
src/ethernet.go names the address fields `DestinationHardwareAddr` /
`SourceHardwareAddr`; the other two variants name them `Destination` / `Source`.
All three have the same layout, embedded once here. -/
structure Frame where
  Destination : List Nat
  Source : List Nat
  VLAN : List VLAN
  EtherType : Nat
  Payload : List Nat
deriving DecidableEq, Repr

/-- The Go zero value of `Frame` (nil slices, zero EtherType). -/
def Frame.empty : Frame := ⟨[], [], [], 0, []⟩

/-- The Go zero value of `VLAN`, as produced by `new(VLAN)`. -/
def VLAN.zero : VLAN := ⟨0, false, 0⟩

/-- `EtherTypeVLAN = 0x8100`. -/
def EtherTypeVLAN : Nat := 0x8100

/-- `minPayload = 46`. -/
def minPayload : Nat := 46

/-- `VLANMax = 0xfff`. -/
def VLANMax : Nat := 0xfff

/-- `binary.BigEndian.Uint16(b)` on two bytes.  On bytes (`< 256`) Go's
`uint16(b0)<<8 | uint16(b1)` coincides with `b0 * 256 + b1`. -/
def be16 (b0 b1 : Nat) : Nat := b0 * 256 + b1

/-- `binary.BigEndian.PutUint16`: writes `[byte(v >> 8), byte(v)]`. -/
def putUint16 (v : Nat) : List Nat := [v / 256 % 256, v % 256]

/-- `binary.BigEndian.Uint32(b)` on four bytes. -/
def be32 (b0 b1 b2 b3 : Nat) : Nat := ((b0 * 256 + b1) * 256 + b2) * 256 + b3

/-- Go's `copy(b[0:len], src)` into a freshly zeroed slice of length `len`:
the first `min len src.length` bytes come from `src`, the rest stay zero. -/
def copyFill (len : Nat) (src : List Nat) : List Nat :=
  src.take len ++ List.replicate (len - src.length) 0

/-- `VLAN.MarshalBinary` (src/vlan.go).  `uint16(v.Priority) << 13` is uint16
arithmetic, hence the `% 2 ^ 16` wrap after the shift. -/
def VLAN.MarshalBinary (v : VLAN) : Except Err (List Nat) :=
  if VLANMax ≤ v.ID then .error .invalidVLAN
  else
    let ub := (v.Priority % 256) <<< 13 % 65536
    let ub := ub ||| ((if v.DropEligible then 1 else 0) <<< 12)
    let ub := ub ||| v.ID
    .ok (putUint16 ub)

/-- `VLAN.UnmarshalBinary` (src/vlan.go).  Takes the receiver `v` and returns the
final receiver state together with the returned error, mirroring that Go assigns
all three fields before performing the VLAN-ID range check. -/
def VLAN.UnmarshalBinary (v : VLAN) (b : List Nat) : VLAN × Option Err :=
  if b.length ≠ 2 then (v, some .truncated)
  else
    let ub := be16 (b.getD 0 0) (b.getD 1 0)
    let v' : VLAN := { Priority := ub >>> 13 % 256
                       DropEligible := (ub &&& 0x1000) != 0
                       ID := ub &&& 0xfff }
    if VLANMax ≤ v'.ID then (v', some .invalidVLAN) else (v', none)

/-- Modelled from the spec: `VLAN.read`, called by `Frame.MarshalBinary` to write a
tag's 2-byte body, is not among the provided sources.  Per the spec ("delegate to
the VLAN Tag Codec to write the tag's 2-byte body", failing with `InvalidVlanId`
exactly when the id is 4095 or more) it performs the same packing and the same
range check as `VLAN.MarshalBinary`. -/
def VLAN.read (v : VLAN) : Except Err (List Nat) := v.MarshalBinary

/-- The VLAN-writing loop of `Frame.MarshalBinary` (src/ethernet.go, first
document, lines 92–102): for each tag, the marker `0x8100` then the 2-byte body. -/
def writeVLANs : List VLAN → Except Err (List Nat)
  | [] => .ok []
  | v :: vs =>
    match v.read with
    | .error e => .error e
    | .ok tb =>
      match writeVLANs vs with
      | .error e => .error e
      | .ok rb => .ok (putUint16 EtherTypeVLAN ++ tb ++ rb)

/-- `Frame.MarshalBinary` (src/ethernet.go, first document).  Returns the pair
(buffer, error) exactly as Go does: `(nil, err)` on a tag error, `(b, nil)` on
success.  The payload is zero-padded to `minPayload` by the zeroed allocation. -/
def Frame.MarshalBinary (f : Frame) : Option (List Nat) × Option Err :=
  let pl := max f.Payload.length minPayload
  match writeVLANs f.VLAN with
  | .error e => (none, some e)
  | .ok vb =>
    (some (copyFill 6 f.Destination ++ copyFill 6 f.Source ++ vb ++
           putUint16 f.EtherType ++ copyFill pl f.Payload), none)

/-- Result of a decode call: success with the final receiver state, an error with
the (possibly partially overwritten) receiver state, or a Go runtime panic. -/
inductive Outcome where
  | ok (f : Frame)
  | err (f : Frame) (e : Err)
  | panic
deriving DecidableEq, Repr

/-- Intermediate result of the VLAN-chain loop. -/
inductive LoopRes where
  | cont (f : Frame) (et n : Nat)
  | fail (f : Frame) (e : Err)
  | panic
deriving DecidableEq, Repr

/-- The VLAN-chain loop of `Frame.UnmarshalBinary` (src/ethernet.go, first
document, lines 140–157).  It checks that only 2 bytes remain (`len(b[n:]) < 2`)
before decoding the tag body `b[n:n+2]`, then reads the next EtherType candidate
from `b[n+2:n+4]` unconditionally; that slice panics when `len b < n + 4`,
modelled by `.panic`.  The decoded tag starts from the zero value `new(VLAN)`. -/
def Frame.vlanChain (b : List Nat) (f : Frame) (et n : Nat) : LoopRes :=
  if et = EtherTypeVLAN then
    if h2 : b.length - n < 2 then .fail f .truncated
    else
      match VLAN.UnmarshalBinary VLAN.zero ((b.drop n).take 2) with
      | (_, some e) => .fail f e
      | (v, none) =>
        if h4 : b.length < n + 4 then .panic
        else
          Frame.vlanChain b { f with VLAN := f.VLAN ++ [v] }
            (be16 (b.getD (n + 2) 0) (b.getD (n + 3) 0)) (n + 4)
  else .cont f et n
termination_by b.length - n
decreasing_by omega

/-- `Frame.UnmarshalBinary` (src/ethernet.go, first document, lines 120–195),
with the minimum-payload check and the stripped-VLAN-tag heuristic. -/
def Frame.UnmarshalBinary (f : Frame) (b : List Nat) : Outcome :=
  if b.length < 14 then .err f .truncated
  else
    let f1 : Frame := { f with Destination := b.take 6, Source := (b.drop 6).take 6 }
    match Frame.vlanChain b f1 (be16 (b.getD 12 0) (b.getD 13 0)) 14 with
    | .panic => .panic
    | .fail f' e => .err f' e
    | .cont f' et n =>
      let f2 : Frame := { f' with EtherType := et }
      let rem := b.length - n
      let vl := min f2.VLAN.length 1
      let vl := if vl = 0 ∧ minPayload - rem = 4 then 1 else vl
      if rem < minPayload - vl * 4 then .err f2 .truncated
      else .ok { f2 with Payload := b.drop n }

/-- The VLAN-chain loop of the revised decoder (src/unnamed/part_000 lines
140–157 and src/ethernet.go second document lines 338–355): it requires 4 bytes
(`len(b[n:]) < 4`) before touching either the tag body or the next candidate.
The slice `b[n+2:n+4]` carries its Go runtime bounds check, modelled explicitly;
the safety theorem below shows it can never fire. -/
def Frame.vlanChainRobust (b : List Nat) (f : Frame) (et n : Nat) : LoopRes :=
  if et = EtherTypeVLAN then
    if h4 : b.length - n < 4 then .fail f .truncated
    else
      match VLAN.UnmarshalBinary VLAN.zero ((b.drop n).take 2) with
      | (_, some e) => .fail f e
      | (v, none) =>
        if hr : n + 4 ≤ b.length then
          Frame.vlanChainRobust b { f with VLAN := f.VLAN ++ [v] }
            (be16 (b.getD (n + 2) 0) (b.getD (n + 3) 0)) (n + 4)
        else .panic
  else .cont f et n
termination_by b.length - n
decreasing_by omega

/-- The revised `Frame.UnmarshalBinary` (src/unnamed/part_000 and src/ethernet.go
second document): no minimum-payload restriction; addresses and payload are
copied only on the success path. -/
def Frame.UnmarshalBinaryRobust (f : Frame) (b : List Nat) : Outcome :=
  if b.length < 14 then .err f .truncated
  else
    match Frame.vlanChainRobust b f (be16 (b.getD 12 0) (b.getD 13 0)) 14 with
    | .panic => .panic
    | .fail f' e => .err f' e
    | .cont f' et n =>
      .ok { f' with EtherType := et, Destination := b.take 6,
                    Source := (b.drop 6).take 6, Payload := b.drop n }

/-- One bit-step of the reflected CRC-32 division. -/
def crc32Round (c : Nat) : Nat :=
  if c % 2 = 1 then c / 2 ^^^ 0xEDB88320 else c / 2

/-- One byte of `crc32.Update` with the IEEE polynomial (Go's table-driven update
is bit-for-bit the standard reflected algorithm embedded here). -/
def crc32Byte (c b : Nat) : Nat := crc32Round^[8] (c ^^^ b % 256)

/-- `crc32.ChecksumIEEE` (hash/crc32): initial value `^0`, final complement. -/
def crc32IEEE (data : List Nat) : Nat :=
  data.foldl crc32Byte 0xFFFFFFFF ^^^ 0xFFFFFFFF

/-- `Frame.UnmarshalFCS` (src/ethernet.go, second document, lines 379–392). -/
def Frame.UnmarshalFCS (f : Frame) (b : List Nat) : Outcome :=
  if b.length < 4 then .err f .truncated
  else
    let want := be32 (b.getD (b.length - 4) 0) (b.getD (b.length - 3) 0)
                     (b.getD (b.length - 2) 0) (b.getD (b.length - 1) 0)
    let got := crc32IEEE (b.take (b.length - 4))
    if want ≠ got then .err f .invalidFCS
    else Frame.UnmarshalBinaryRobust f (b.take (b.length - 4))

/-! ## Bit-arithmetic helpers -/

/-- Bitwise or of numbers occupying disjoint bit ranges is addition. -/
theorem lor_eq_add {n : Nat} (a b : Nat) (ha : a % 2 ^ n = 0) (hb : b < 2 ^ n) :
    a ||| b = a + b := by
  obtain ⟨q, rfl⟩ := Nat.dvd_of_mod_eq_zero ha
  apply Nat.eq_of_testBit_eq
  intro j
  rw [Nat.testBit_or, Nat.testBit_mul_pow_two_add _ hb, Nat.testBit_mul_pow_two]
  by_cases hj : j < n
  · simp [hj, Nat.not_le_of_lt hj]
  · have hbj : b < 2 ^ j :=
      lt_of_lt_of_le hb (Nat.pow_le_pow_right (by norm_num) (Nat.le_of_not_lt hj))
    simp [hj, Nat.le_of_not_lt hj, Nat.testBit_lt_two_pow hbj]

/-- The packed 16-bit word a valid tag marshals to, in arithmetic form. -/
theorem VLAN_MarshalBinary_ok (v : VLAN) (hid : v.ID < 4095) :
    VLAN.MarshalBinary v =
      .ok (putUint16 (8192 * (v.Priority % 8) + (if v.DropEligible then 4096 else 0) + v.ID)) := by
  have h13 : (v.Priority % 256) <<< 13 % 65536 = 8192 * (v.Priority % 8) := by
    rw [Nat.shiftLeft_eq]
    have : v.Priority % 256 * 2 ^ 13 % 65536 = v.Priority % 256 % 8 * 8192 := by
      have := Nat.mul_mod_mul_right 8192 (v.Priority % 256) 8
      simpa [Nat.mul_comm] using this
    rw [this, Nat.mod_mod_of_dvd _ (by norm_num), Nat.mul_comm]
  have hd : ((if v.DropEligible then 1 else 0) <<< 12) = if v.DropEligible then 4096 else 0 := by
    cases v.DropEligible <;> rfl
  have h1 : 8192 * (v.Priority % 8) ||| (if v.DropEligible then 4096 else 0) =
      8192 * (v.Priority % 8) + (if v.DropEligible then 4096 else 0) := by
    apply lor_eq_add (n := 13)
    · have : v.Priority % 8 < 8 := Nat.mod_lt _ (by norm_num)
      omega
    · split <;> norm_num
  have h2 : (8192 * (v.Priority % 8) + (if v.DropEligible then 4096 else 0)) ||| v.ID =
      8192 * (v.Priority % 8) + (if v.DropEligible then 4096 else 0) + v.ID := by
    apply lor_eq_add (n := 12)
    · have : v.Priority % 8 < 8 := Nat.mod_lt _ (by norm_num)
      split <;> omega
    · omega
  simp only [VLAN.MarshalBinary, VLANMax]
  rw [if_neg (by omega), h13, hd, h1, h2]

/-- Evaluating `VLAN.UnmarshalBinary` on an explicit 2-byte input. -/
theorem VLAN_UnmarshalBinary_len2 (u : VLAN) (b0 b1 : Nat) :
    VLAN.UnmarshalBinary u [b0, b1] =
      (⟨be16 b0 b1 >>> 13 % 256, (be16 b0 b1 &&& 0x1000) != 0, be16 b0 b1 &&& 0xfff⟩,
       if VLANMax ≤ be16 b0 b1 &&& 0xfff then some .invalidVLAN else none) := by
  show (if ([b0, b1].length ≠ 2) then _ else _) = _
  rw [if_neg (by simp)]
  simp only [List.getD_cons_zero, List.getD_cons_succ]
  split_ifs <;> rfl

/-- Unmarshalling the packed word of a tag with in-range fields recovers it. -/
theorem VLAN_UnmarshalBinary_pack (u : VLAN) (p : Nat) (d : Bool) (id : Nat)
    (hp : p < 8) (hid : id < 4095) :
    VLAN.UnmarshalBinary u (putUint16 (8192 * p + (if d then 4096 else 0) + id)) =
      (⟨p, d, id⟩, none) := by
  have hx1000 : (0x1000 : Nat) = 2 ^ 12 := by norm_num
  have hxfff : (0xfff : Nat) = 2 ^ 12 - 1 := by norm_num
  cases d with
  | false =>
    simp only [Bool.false_eq_true, if_false, Nat.add_zero]
    have hbe : be16 ((8192 * p + id) / 256 % 256) ((8192 * p + id) % 256) = 8192 * p + id := by
      simp only [be16]; omega
    rw [putUint16, VLAN_UnmarshalBinary_len2, hbe]
    have e1 : (8192 * p + id) >>> 13 % 256 = p := by
      rw [Nat.shiftRight_eq_div_pow]; omega
    have e2 : ((8192 * p + id) &&& 0x1000) = 0 := by
      rw [hx1000, Nat.and_two_pow, Nat.testBit_to_div_mod]
      have : (8192 * p + id) / 4096 % 2 = 0 := by omega
      simp [this]
    have e3 : (8192 * p + id) &&& 0xfff = id := by
      rw [hxfff, Nat.and_pow_two_sub_one_eq_mod]; omega
    rw [e1, e2, e3, if_neg (by simp only [VLANMax]; omega)]
    rfl
  | true =>
    simp only [if_true]
    have hbe : be16 ((8192 * p + 4096 + id) / 256 % 256) ((8192 * p + 4096 + id) % 256) =
        8192 * p + 4096 + id := by
      simp only [be16]; omega
    rw [putUint16, VLAN_UnmarshalBinary_len2, hbe]
    have e1 : (8192 * p + 4096 + id) >>> 13 % 256 = p := by
      rw [Nat.shiftRight_eq_div_pow]; omega
    have e2 : ((8192 * p + 4096 + id) &&& 0x1000) = 4096 := by
      rw [hx1000, Nat.and_two_pow, Nat.testBit_to_div_mod]
      have : (8192 * p + 4096 + id) / 4096 % 2 = 1 := by omega
      simp [this]
    have e3 : (8192 * p + 4096 + id) &&& 0xfff = id := by
      rw [hxfff, Nat.and_pow_two_sub_one_eq_mod]; omega
    rw [e1, e2, e3, if_neg (by simp only [VLANMax]; omega)]
    rfl

/-! ## C5: invalid VLAN id rejection -/

/-- C5: `VLAN.MarshalBinary` and `VLAN.UnmarshalBinary` fail with `InvalidVlanId`
for every tag whose id equals 4095, and both succeed for every tag with id in
[0, 4094] given a well-formed 2-byte input. -/
theorem c5_invalid_vlan_id (v u : VLAN) (b : List Nat)
    (hv : v.ID = 4095) (hlen : b.length = 2) :
    VLAN.MarshalBinary v = .error .invalidVLAN ∧
    (∀ v' : VLAN, v'.ID ≤ 4094 → ∃ bs, VLAN.MarshalBinary v' = .ok bs) ∧
    ((VLAN.UnmarshalBinary u b).1.ID = 4095 →
      (VLAN.UnmarshalBinary u b).2 = some .invalidVLAN) ∧
    ((VLAN.UnmarshalBinary u b).1.ID ≤ 4094 → (VLAN.UnmarshalBinary u b).2 = none) := by
  obtain ⟨b0, b1, rfl⟩ : ∃ x y, b = [x, y] := by
    match b with
    | [x, y] => exact ⟨x, y, rfl⟩
  refine ⟨?_, ?_, ?_, ?_⟩
  · simp only [VLAN.MarshalBinary, VLANMax]
    rw [if_pos (by omega)]
  · intro v' hv'
    exact ⟨_, VLAN_MarshalBinary_ok v' (by omega)⟩
  · rw [VLAN_UnmarshalBinary_len2]
    intro h1
    simp only at h1
    rw [if_pos (by simp only [VLANMax]; omega)]
  · rw [VLAN_UnmarshalBinary_len2]
    intro h1
    simp only at h1
    rw [if_neg (by simp only [VLANMax]; omega)]

/-- Witness for C5 at concrete inputs. -/
theorem c5_invalid_vlan_id_witness :
    VLAN.MarshalBinary ⟨0, false, 4095⟩ = .error .invalidVLAN ∧
    (∀ v' : VLAN, v'.ID ≤ 4094 → ∃ bs, VLAN.MarshalBinary v' = .ok bs) ∧
    ((VLAN.UnmarshalBinary VLAN.zero [0x0f, 0xff]).1.ID = 4095 →
      (VLAN.UnmarshalBinary VLAN.zero [0x0f, 0xff]).2 = some .invalidVLAN) ∧
    ((VLAN.UnmarshalBinary VLAN.zero [0x0f, 0xff]).1.ID ≤ 4094 →
      (VLAN.UnmarshalBinary VLAN.zero [0x0f, 0xff]).2 = none) :=
  c5_invalid_vlan_id ⟨0, false, 4095⟩ VLAN.zero [0x0f, 0xff] rfl rfl

/-! ## C6: VLAN tag bit layout -/

/-- Field extraction from the packed word `8192*p + 4096*d + id`. -/
theorem packedWord_fields (p : Nat) (d : Bool) (id w : Nat) (hp : p < 8) (hid : id < 4095)
    (hw : w = 8192 * p + (if d then 4096 else 0) + id) :
    w < 65536 ∧ w >>> 13 = p ∧ ((w &&& 0x1000) != 0) = d ∧ w &&& 0xfff = id := by
  cases d with
  | false =>
    simp only [Bool.false_eq_true, if_false, Nat.add_zero] at hw
    subst hw
    refine ⟨by omega, ?_, ?_, ?_⟩
    · rw [Nat.shiftRight_eq_div_pow]; omega
    · have e2 : ((8192 * p + id) &&& 0x1000) = 0 := by
        rw [show (0x1000 : Nat) = 2 ^ 12 by norm_num, Nat.and_two_pow,
          Nat.testBit_to_div_mod]
        have : (8192 * p + id) / 4096 % 2 = 0 := by omega
        simp [this]
      simp [e2]
    · rw [show (0xfff : Nat) = 2 ^ 12 - 1 by norm_num, Nat.and_pow_two_sub_one_eq_mod]
      omega
  | true =>
    simp only [if_true] at hw
    subst hw
    refine ⟨by omega, ?_, ?_, ?_⟩
    · rw [Nat.shiftRight_eq_div_pow]; omega
    · have e2 : ((8192 * p + 4096 + id) &&& 0x1000) = 4096 := by
        rw [show (0x1000 : Nat) = 2 ^ 12 by norm_num, Nat.and_two_pow,
          Nat.testBit_to_div_mod]
        have : (8192 * p + 4096 + id) / 4096 % 2 = 1 := by omega
        simp [this]
      simp [e2]
    · rw [show (0xfff : Nat) = 2 ^ 12 - 1 by norm_num, Nat.and_pow_two_sub_one_eq_mod]
      omega

/-- C6 counterexample: the tag `{Priority: 8, DropEligible: false, ID: 1}` has id
in [0, 4094], yet `uint16(8) << 13` wraps to 0 in 16-bit arithmetic, so the
marshalled word's bits 15–13 are 0, not the priority 8. -/
theorem c6_counterexample :
    VLAN.MarshalBinary ⟨8, false, 1⟩ = .ok [0, 1] ∧ be16 0 1 >>> 13 ≠ 8 :=
  ⟨rfl, by decide⟩

/-- C6 amended: for every VLAN tag with id in [0, 4094] (priority being a Go
`uint8`), `VLAN.MarshalBinary` produces exactly 2 bytes forming a big-endian
16-bit word with bits 15–13 equal to the priority reduced modulo 8 (equal to the
priority whenever it is at most 7), bit 12 equal to the drop-eligible flag, and
bits 11–0 equal to the id; `VLAN.UnmarshalBinary` extracts exactly those fields. -/
theorem c6_vlan_bit_layout (v : VLAN) (hid : v.ID ≤ 4094) (hp : v.Priority < 256) :
    ∃ b0 b1, VLAN.MarshalBinary v = .ok [b0, b1] ∧ b0 < 256 ∧ b1 < 256 ∧
      be16 b0 b1 >>> 13 = v.Priority % 8 ∧
      ((be16 b0 b1 &&& 0x1000) != 0) = v.DropEligible ∧
      (be16 b0 b1 &&& 0xfff) = v.ID ∧
      ∀ u : VLAN, VLAN.UnmarshalBinary u [b0, b1] =
        (⟨v.Priority % 8, v.DropEligible, v.ID⟩, none) := by
  have hok := VLAN_MarshalBinary_ok v (by omega)
  set w : Nat := 8192 * (v.Priority % 8) + (if v.DropEligible then 4096 else 0) + v.ID
    with hw
  obtain ⟨hlt, h13, h12, hmask⟩ :=
    packedWord_fields (v.Priority % 8) v.DropEligible v.ID w
      (Nat.mod_lt _ (by norm_num)) (by omega) hw
  have hbe : be16 (w / 256 % 256) (w % 256) = w := by
    simp only [be16]; omega
  refine ⟨w / 256 % 256, w % 256, ?_, by omega, by omega, ?_, ?_, ?_, ?_⟩
  · rw [hok]; rfl
  · rw [hbe, h13]
  · rw [hbe, h12]
  · rw [hbe, hmask]
  · intro u
    have hu := VLAN_UnmarshalBinary_pack u (v.Priority % 8) v.DropEligible v.ID
      (Nat.mod_lt _ (by norm_num)) (by omega)
    rw [← hw, putUint16] at hu
    exact hu

/-- Witness for C6 at the concrete tag `{Priority: 5, DropEligible: true, ID: 123}`. -/
theorem c6_vlan_bit_layout_witness :
    ∃ b0 b1, VLAN.MarshalBinary ⟨5, true, 123⟩ = .ok [b0, b1] ∧ b0 < 256 ∧ b1 < 256 ∧
      be16 b0 b1 >>> 13 = 5 % 8 ∧
      ((be16 b0 b1 &&& 0x1000) != 0) = true ∧
      (be16 b0 b1 &&& 0xfff) = 123 ∧
      ∀ u : VLAN, VLAN.UnmarshalBinary u [b0, b1] = (⟨5 % 8, true, 123⟩, none) :=
  c6_vlan_bit_layout ⟨5, true, 123⟩ (by norm_num) (by norm_num)

/-! ## C2 and C3: length heuristic at the boundaries -/

/-- The VLAN-chain loop exits immediately when the candidate is not the marker. -/
theorem vlanChain_not_marker (b : List Nat) (f : Frame) (et n : Nat)
    (h : et ≠ EtherTypeVLAN) : Frame.vlanChain b f et n = .cont f et n := by
  rw [Frame.vlanChain, if_neg h]

/-- C2: with zero decoded VLAN tags (no marker at offset 12), a remaining payload
of exactly 42 bytes decodes successfully — the heuristic credits one stripped tag
for the exact 4-byte shortfall — while 41 bytes fail with `TruncatedInput`; the
credited tag never appears in the decoded VLAN chain. -/
theorem c2_stripped_tag_heuristic (b1 b2 : List Nat)
    (h1 : b1.length = 56) (hm1 : be16 (b1.getD 12 0) (b1.getD 13 0) ≠ EtherTypeVLAN)
    (h2 : b2.length = 55) (hm2 : be16 (b2.getD 12 0) (b2.getD 13 0) ≠ EtherTypeVLAN) :
    Frame.UnmarshalBinary Frame.empty b1 =
      .ok ⟨b1.take 6, (b1.drop 6).take 6, [],
           be16 (b1.getD 12 0) (b1.getD 13 0), b1.drop 14⟩ ∧
    Frame.UnmarshalBinary Frame.empty b2 =
      .err ⟨b2.take 6, (b2.drop 6).take 6, [],
            be16 (b2.getD 12 0) (b2.getD 13 0), []⟩ .truncated := by
  constructor
  · rw [Frame.UnmarshalBinary, if_neg (by omega)]
    dsimp only
    rw [vlanChain_not_marker _ _ _ _ hm1]
    simp only [Frame.empty, h1]
    norm_num [minPayload]
  · rw [Frame.UnmarshalBinary, if_neg (by omega)]
    dsimp only
    rw [vlanChain_not_marker _ _ _ _ hm2]
    simp only [Frame.empty, h2]
    norm_num [minPayload]

/-- Witness for C2 at concrete 56- and 55-byte buffers of sevens. -/
theorem c2_stripped_tag_heuristic_witness :
    Frame.UnmarshalBinary Frame.empty (List.replicate 56 7) =
      .ok ⟨(List.replicate 56 7).take 6, ((List.replicate 56 7).drop 6).take 6, [],
           be16 ((List.replicate 56 7).getD 12 0) ((List.replicate 56 7).getD 13 0),
           (List.replicate 56 7).drop 14⟩ ∧
    Frame.UnmarshalBinary Frame.empty (List.replicate 55 7) =
      .err ⟨(List.replicate 55 7).take 6, ((List.replicate 55 7).drop 6).take 6, [],
            be16 ((List.replicate 55 7).getD 12 0) ((List.replicate 55 7).getD 13 0), []⟩
        .truncated :=
  c2_stripped_tag_heuristic (List.replicate 56 7) (List.replicate 55 7)
    (by simp) (by decide) (by simp) (by decide)

/-- C3 counterexample: a 14-byte all-zero buffer (EtherType 0, not the VLAN
marker) is rejected with `TruncatedInput` by `Frame.UnmarshalBinary` — the
zero-length remaining payload is 46 bytes short and the heuristic credits a tag
only for an exact 4-byte shortfall — contradicting the claimed success. -/
theorem c3_counterexample :
    Frame.UnmarshalBinary Frame.empty (List.replicate 14 0) =
      .err ⟨List.replicate 6 0, List.replicate 6 0, [], 0, []⟩ .truncated := by
  simp [Frame.UnmarshalBinary, Frame.vlanChain, Frame.empty, EtherTypeVLAN, minPayload,
    be16, List.replicate]

/-- C3 amended: `Frame.UnmarshalBinary` fails with `TruncatedInput` for every
buffer shorter than 14 bytes, and also fails with `TruncatedInput` on a buffer of
exactly 14 bytes whose EtherType is not the VLAN marker: the zero-length
remaining payload is 46 bytes short of the minimum, and the heuristic credits a
stripped tag only for an exact 4-byte shortfall. -/
theorem c3_truncation (f : Frame) (b1 b2 : List Nat)
    (h1 : b1.length < 14)
    (h2 : b2.length = 14) (hm2 : be16 (b2.getD 12 0) (b2.getD 13 0) ≠ EtherTypeVLAN) :
    Frame.UnmarshalBinary f b1 = .err f .truncated ∧
    Frame.UnmarshalBinary f b2 =
      .err { f with Destination := b2.take 6, Source := (b2.drop 6).take 6,
                    EtherType := be16 (b2.getD 12 0) (b2.getD 13 0) } .truncated := by
  constructor
  · rw [Frame.UnmarshalBinary, if_pos h1]
  · rw [Frame.UnmarshalBinary, if_neg (by omega)]
    dsimp only
    rw [vlanChain_not_marker _ _ _ _ hm2]
    simp only [h2]
    have hmin : min f.VLAN.length 1 ≤ 1 := Nat.min_le_right _ _
    norm_num [minPayload]
    omega

/-- Witness for C3 at a 13-byte and a 14-byte all-zero buffer. -/
theorem c3_truncation_witness :
    Frame.UnmarshalBinary Frame.empty (List.replicate 13 0) = .err Frame.empty .truncated ∧
    Frame.UnmarshalBinary Frame.empty (List.replicate 14 0) =
      .err { Frame.empty with
               Destination := (List.replicate 14 0).take 6,
               Source := ((List.replicate 14 0).drop 6).take 6,
               EtherType := be16 ((List.replicate 14 0).getD 12 0)
                                 ((List.replicate 14 0).getD 13 0) } .truncated :=
  c3_truncation Frame.empty (List.replicate 13 0) (List.replicate 14 0)
    (by simp) (by simp) (by decide)

/-! ## C4: bounds checking in the VLAN-chain loop -/

/-- The revised loop fails with `TruncatedInput` as soon as fewer than 4 bytes
remain past the cursor while the candidate is the VLAN marker. -/
theorem vlanChainRobust_short (b : List Nat) (f : Frame) (n : Nat)
    (h : b.length - n < 4) :
    Frame.vlanChainRobust b f EtherTypeVLAN n = .fail f .truncated := by
  rw [Frame.vlanChainRobust, if_pos rfl, dif_pos h]

/-- The revised loop never reads out of range: its modelled Go bounds check
cannot fire. -/
theorem vlanChainRobust_ne_panic (b : List Nat) :
    ∀ k n (f : Frame) et, b.length - n = k → Frame.vlanChainRobust b f et n ≠ .panic := by
  intro k
  induction k using Nat.strong_induction_on with
  | _ k IH =>
    intro n f et hk
    rw [Frame.vlanChainRobust]
    by_cases h1 : et = EtherTypeVLAN
    · rw [if_pos h1]
      by_cases h4 : b.length - n < 4
      · rw [dif_pos h4]
        simp
      · rw [dif_neg h4]
        rcases hu : VLAN.UnmarshalBinary VLAN.zero ((b.drop n).take 2) with ⟨v, e⟩
        cases e with
        | some e' => simp
        | none =>
          have hr : n + 4 ≤ b.length := by omega
          dsimp only
          rw [dif_pos hr]
          exact IH (b.length - (n + 4)) (by omega) (n + 4) _ _ rfl
    · rw [if_neg h1]
      simp

/-- The revised decoder as a whole never panics, for any input. -/
theorem UnmarshalBinaryRobust_ne_panic (f : Frame) (b : List Nat) :
    Frame.UnmarshalBinaryRobust f b ≠ .panic := by
  rw [Frame.UnmarshalBinaryRobust]
  split_ifs with h
  · simp
  · rcases hc : Frame.vlanChainRobust b f (be16 (b.getD 12 0) (b.getD 13 0)) 14 with
      ⟨f', et, n⟩ | ⟨f', e⟩ | _
    · simp
    · simp
    · exact absurd hc (vlanChainRobust_ne_panic b (b.length - 14) 14 f _ rfl)

/-- C4: at the 16-byte input with the VLAN marker at offset 12, a valid 2-byte
tag body and only 2 bytes remaining past the cursor, the primary
`Frame.UnmarshalBinary` (first document of src/ethernet.go, which checks only
`len(b[n:]) < 2`) slices `b[n+2:n+4]` past the end of the buffer — a Go runtime
panic — while the revised decoder (src/unnamed/part_000, second document), which
requires 4 remaining bytes as the claim states, fails with `TruncatedInput`
without any out-of-range access. -/
theorem c4_loop_bounds_check :
    Frame.UnmarshalBinary Frame.empty
        [0, 0, 0, 0, 0, 0, 0, 0, 0, 0, 0, 0, 0x81, 0x00, 0x00, 0x01] = .panic ∧
    Frame.UnmarshalBinaryRobust Frame.empty
        [0, 0, 0, 0, 0, 0, 0, 0, 0, 0, 0, 0, 0x81, 0x00, 0x00, 0x01] =
      .err Frame.empty .truncated := by
  constructor
  · simp [Frame.UnmarshalBinary, Frame.vlanChain, Frame.empty, EtherTypeVLAN, be16,
      VLAN.UnmarshalBinary, VLAN.zero, VLANMax]
  · simp [Frame.UnmarshalBinaryRobust, Frame.vlanChainRobust, Frame.empty, EtherTypeVLAN,
      be16]

/-! ## C8: the FCS wrapper -/

/-- C8: `Frame.UnmarshalFCS` fails with `TruncatedInput` on fewer than 4 bytes;
with at least 4 bytes it fails with `ChecksumMismatch` exactly when the
big-endian 32-bit trailer differs from the IEEE CRC32 of the preceding bytes
(leaving the receiver untouched, so the body is never decoded), and on a
matching checksum it returns exactly the result of `Frame.UnmarshalBinaryRobust`
on the input with the 4-byte trailer removed. -/
theorem c8_unmarshal_fcs (f : Frame) (b1 b2 b3 : List Nat)
    (h1 : b1.length < 4)
    (h2 : 4 ≤ b2.length)
    (hne : be32 (b2.getD (b2.length - 4) 0) (b2.getD (b2.length - 3) 0)
             (b2.getD (b2.length - 2) 0) (b2.getD (b2.length - 1) 0) ≠
           crc32IEEE (b2.take (b2.length - 4)))
    (h3 : 4 ≤ b3.length)
    (heq : be32 (b3.getD (b3.length - 4) 0) (b3.getD (b3.length - 3) 0)
             (b3.getD (b3.length - 2) 0) (b3.getD (b3.length - 1) 0) =
           crc32IEEE (b3.take (b3.length - 4))) :
    Frame.UnmarshalFCS f b1 = .err f .truncated ∧
    Frame.UnmarshalFCS f b2 = .err f .invalidFCS ∧
    Frame.UnmarshalFCS f b3 = Frame.UnmarshalBinaryRobust f (b3.take (b3.length - 4)) := by
  refine ⟨?_, ?_, ?_⟩
  · rw [Frame.UnmarshalFCS, if_pos h1]
  · rw [Frame.UnmarshalFCS, if_neg (by omega)]
    dsimp only
    rw [if_pos hne]
  · rw [Frame.UnmarshalFCS, if_neg (by omega)]
    dsimp only
    rw [if_neg (by rw [heq]; exact fun h => h rfl)]

/-- Witness for C8: a 3-byte buffer, a 4-byte buffer with a wrong checksum over
the empty body, and a 4-byte buffer carrying the correct (zero) checksum of the
empty body. -/
theorem c8_unmarshal_fcs_witness :
    Frame.UnmarshalFCS Frame.empty [0, 0, 0] = .err Frame.empty .truncated ∧
    Frame.UnmarshalFCS Frame.empty [0, 0, 0, 1] = .err Frame.empty .invalidFCS ∧
    Frame.UnmarshalFCS Frame.empty [0, 0, 0, 0] =
      Frame.UnmarshalBinaryRobust Frame.empty ([0, 0, 0, 0].take (4 - 4)) :=
  c8_unmarshal_fcs Frame.empty [0, 0, 0] [0, 0, 0, 1] [0, 0, 0, 0]
    (by norm_num) (by norm_num) (by decide) (by norm_num) (by decide)

/-! ## C9: atomicity on failure -/

/-- C9 counterexample: `VLAN.UnmarshalBinary` on the 2-byte input `0x0fff`
returns `InvalidVlanId` yet has overwritten the receiver's fields (the zero tag
now carries id 4095), so a failed decode does leave the destination partially
populated. -/
theorem c9_counterexample :
    VLAN.UnmarshalBinary VLAN.zero [0x0f, 0xff] = (⟨0, false, 4095⟩, some .invalidVLAN) ∧
    (⟨0, false, 4095⟩ : VLAN) ≠ VLAN.zero := by
  constructor
  · decide
  · decide

/-- C9 amended: encoding is atomic on failure — whenever `Frame.MarshalBinary`
returns an error it returns no buffer (`nil`) — but decoding is not:
`VLAN.UnmarshalBinary` on a 2-byte input whose low 12 bits are all ones returns
`InvalidVlanId` with the destination tag already fully overwritten by the
decoded priority, drop-eligible flag and (invalid) id 4095. -/
theorem c9_error_atomicity (f : Frame) (e : Err) (u : VLAN) (b0 b1 : Nat)
    (hmarsh : (Frame.MarshalBinary f).2 = some e)
    (hid : be16 b0 b1 &&& 0xfff = 4095) :
    (Frame.MarshalBinary f).1 = none ∧
    VLAN.UnmarshalBinary u [b0, b1] =
      (⟨be16 b0 b1 >>> 13 % 256, (be16 b0 b1 &&& 0x1000) != 0, 4095⟩,
       some .invalidVLAN) := by
  constructor
  · rw [Frame.MarshalBinary] at hmarsh ⊢
    rcases hw : writeVLANs f.VLAN with e' | vb
    · rfl
    · rw [hw] at hmarsh
      simp at hmarsh
  · rw [VLAN_UnmarshalBinary_len2, hid,
      if_pos (by simp only [VLANMax]; omega)]

/-- Witness for C9: a frame holding the invalid tag id 4095 fails to encode with
no buffer, and the concrete input `0x0fff` overwrites the zero tag. -/
theorem c9_error_atomicity_witness :
    (Frame.MarshalBinary ⟨[], [], [⟨0, false, 4095⟩], 0, []⟩).1 = none ∧
    VLAN.UnmarshalBinary VLAN.zero [0x0f, 0xff] =
      (⟨be16 0x0f 0xff >>> 13 % 256, (be16 0x0f 0xff &&& 0x1000) != 0, 4095⟩,
       some .invalidVLAN) :=
  c9_error_atomicity ⟨[], [], [⟨0, false, 4095⟩], 0, []⟩ .invalidVLAN VLAN.zero
    0x0f 0xff (by decide) (by decide)

/-! ## C7: encode layout -/

/-- A successful `VLAN.read` writes exactly 2 bytes. -/
theorem VLAN_read_length (v : VLAN) (tb : List Nat) (h : v.read = .ok tb) :
    tb.length = 2 := by
  rw [VLAN.read, VLAN.MarshalBinary] at h
  by_cases hid : VLANMax ≤ v.ID
  · rw [if_pos hid] at h
    exact absurd h (by simp)
  · rw [if_neg hid] at h
    dsimp only at h
    simp only [Except.ok.injEq] at h
    rw [← h]
    rfl

/-- A successful VLAN-writing loop emits 4 bytes per tag. -/
theorem writeVLANs_length (tags : List VLAN) (vb : List Nat)
    (h : writeVLANs tags = .ok vb) : vb.length = 4 * tags.length := by
  induction tags generalizing vb with
  | nil =>
    rw [writeVLANs] at h
    simp only [Except.ok.injEq] at h
    simp [← h]
  | cons v vs ih =>
    rw [writeVLANs] at h
    rcases hr : v.read with e | tb <;> rw [hr] at h
    · exact absurd h (by simp)
    · rcases hw : writeVLANs vs with e | rb <;> rw [hw] at h
      · exact absurd h (by simp)
      · simp only [Except.ok.injEq] at h
        have := ih rb hw
        have := VLAN_read_length v tb hr
        simp [← h, putUint16, List.length_append, this]
        omega

/-- `copyFill` always has the requested length. -/
theorem copyFill_length (n : Nat) (src : List Nat) : (copyFill n src).length = n := by
  simp only [copyFill, List.length_append, List.length_take, List.length_replicate]
  omega

/-- C7: the buffer returned by a successful `Frame.MarshalBinary` has length
exactly `12 + 4*(number of VLAN tags) + 2 + max(payload length, 46)`, carries
the payload unmodified right after the terminal EtherType, and every byte after
the payload up to the end of the buffer is zero. -/
theorem c7_encode_layout (f : Frame) (buf : List Nat)
    (h : Frame.MarshalBinary f = (some buf, none)) :
    buf.length = 12 + 4 * f.VLAN.length + 2 + max f.Payload.length 46 ∧
    (buf.drop (14 + 4 * f.VLAN.length)).take f.Payload.length = f.Payload ∧
    buf.drop (14 + 4 * f.VLAN.length + f.Payload.length) =
      List.replicate (max f.Payload.length 46 - f.Payload.length) 0 := by
  rw [Frame.MarshalBinary] at h
  rcases hw : writeVLANs f.VLAN with e | vb <;> rw [hw] at h
  · exact absurd h (by simp)
  · simp only [Prod.mk.injEq, Option.some.injEq] at h
    obtain ⟨hbuf, -⟩ := h
    have hvb := writeVLANs_length f.VLAN vb hw
    have hpre : (copyFill 6 f.Destination ++ copyFill 6 f.Source ++ vb ++
        putUint16 f.EtherType).length = 14 + 4 * f.VLAN.length := by
      simp [List.length_append, copyFill_length, putUint16, hvb]
      omega
    have hassoc : copyFill 6 f.Destination ++ copyFill 6 f.Source ++ vb ++
        putUint16 f.EtherType ++ copyFill (max f.Payload.length minPayload) f.Payload =
        (copyFill 6 f.Destination ++ copyFill 6 f.Source ++ vb ++ putUint16 f.EtherType) ++
        copyFill (max f.Payload.length minPayload) f.Payload := by
      simp [List.append_assoc]
    have htake : f.Payload.take (max f.Payload.length minPayload) = f.Payload :=
      List.take_of_length_le (by omega)
    refine ⟨?_, ?_, ?_⟩
    · rw [← hbuf, hassoc]
      simp only [List.length_append, hpre, copyFill_length, minPayload]
      omega
    · rw [← hbuf, hassoc, List.drop_left' hpre]
      rw [copyFill, htake, List.take_left' rfl]
    · rw [← hbuf, hassoc]
      have : 14 + 4 * f.VLAN.length + f.Payload.length =
          (copyFill 6 f.Destination ++ copyFill 6 f.Source ++ vb ++
            putUint16 f.EtherType).length + f.Payload.length := by omega
      rw [this, ← List.drop_drop, List.drop_left]
      rw [copyFill, htake, List.drop_left]
      simp [minPayload]

/-- Witness for C7 at a concrete frame with one VLAN tag and a 3-byte payload. -/
theorem c7_encode_layout_witness :
    Frame.MarshalBinary ⟨[1, 2, 3, 4, 5, 6], [6, 5, 4, 3, 2, 1], [⟨1, false, 2⟩], 0x0800, [9, 9, 9]⟩ =
      (some ([1, 2, 3, 4, 5, 6] ++ [6, 5, 4, 3, 2, 1] ++ [0x81, 0x00, 0x20, 0x02] ++
        [0x08, 0x00] ++ ([9, 9, 9] ++ List.replicate 43 0)), none) ∧
    (([1, 2, 3, 4, 5, 6] ++ [6, 5, 4, 3, 2, 1] ++ [0x81, 0x00, 0x20, 0x02] ++
        [0x08, 0x00] ++ ([9, 9, 9] ++ List.replicate 43 0)).length = 12 + 4 * 1 + 2 + max 3 46 ∧
      (([1, 2, 3, 4, 5, 6] ++ [6, 5, 4, 3, 2, 1] ++ [0x81, 0x00, 0x20, 0x02] ++
        [0x08, 0x00] ++ ([9, 9, 9] ++ List.replicate 43 0)).drop (14 + 4 * 1)).take 3 = [9, 9, 9] ∧
      ([1, 2, 3, 4, 5, 6] ++ [6, 5, 4, 3, 2, 1] ++ [0x81, 0x00, 0x20, 0x02] ++
        [0x08, 0x00] ++ ([9, 9, 9] ++ List.replicate 43 0)).drop (14 + 4 * 1 + 3) =
        List.replicate (max 3 46 - 3) 0) := by
  have h : Frame.MarshalBinary
      ⟨[1, 2, 3, 4, 5, 6], [6, 5, 4, 3, 2, 1], [⟨1, false, 2⟩], 0x0800, [9, 9, 9]⟩ =
      (some ([1, 2, 3, 4, 5, 6] ++ [6, 5, 4, 3, 2, 1] ++ [0x81, 0x00, 0x20, 0x02] ++
        [0x08, 0x00] ++ ([9, 9, 9] ++ List.replicate 43 0)), none) := by decide
  exact ⟨h, c7_encode_layout _ _ h⟩

/-! ## C10: decoded tags are appended to the receiver's chain -/

/-- The VLAN-chain loop treats the receiver uniformly: the decoded-tag suffix,
the final candidate and cursor (or the failure) depend only on the buffer. -/
theorem vlanChain_uniform (b : List Nat) :
    ∀ k n et, b.length - n = k →
      (∃ ts et' n', ∀ f : Frame, Frame.vlanChain b f et n =
        .cont { f with VLAN := f.VLAN ++ ts } et' n') ∨
      (∃ ts e, ∀ f : Frame, Frame.vlanChain b f et n =
        .fail { f with VLAN := f.VLAN ++ ts } e) ∨
      (∀ f : Frame, Frame.vlanChain b f et n = .panic) := by
  intro k
  induction k using Nat.strong_induction_on with
  | _ k IH =>
    intro n et hk
    by_cases h1 : et = EtherTypeVLAN
    · by_cases h2 : b.length - n < 2
      · refine Or.inr (Or.inl ⟨[], .truncated, fun f => ?_⟩)
        rw [Frame.vlanChain, if_pos h1, dif_pos h2]
        simp
      · rcases hu : VLAN.UnmarshalBinary VLAN.zero ((b.drop n).take 2) with ⟨v, e⟩
        cases e with
        | some e' =>
          refine Or.inr (Or.inl ⟨[], e', fun f => ?_⟩)
          rw [Frame.vlanChain, if_pos h1, dif_neg h2, hu]
          simp
        | none =>
          by_cases h4 : b.length < n + 4
          · refine Or.inr (Or.inr fun f => ?_)
            rw [Frame.vlanChain, if_pos h1, dif_neg h2, hu]
            dsimp only
            rw [dif_pos h4]
          · rcases IH (b.length - (n + 4)) (by omega) (n + 4)
                (be16 (b.getD (n + 2) 0) (b.getD (n + 3) 0)) rfl with
              ⟨ts, et', n', hts⟩ | ⟨ts, e', hts⟩ | hts
            · refine Or.inl ⟨v :: ts, et', n', fun f => ?_⟩
              rw [Frame.vlanChain, if_pos h1, dif_neg h2, hu]
              dsimp only
              rw [dif_neg h4, hts]
              simp
            · refine Or.inr (Or.inl ⟨v :: ts, e', fun f => ?_⟩)
              rw [Frame.vlanChain, if_pos h1, dif_neg h2, hu]
              dsimp only
              rw [dif_neg h4, hts]
              simp
            · refine Or.inr (Or.inr fun f => ?_)
              rw [Frame.vlanChain, if_pos h1, dif_neg h2, hu]
              dsimp only
              rw [dif_neg h4, hts]
    · refine Or.inl ⟨[], et, n, fun f => ?_⟩
      rw [vlanChain_not_marker _ _ _ _ h1]
      simp

/-- C10: `Frame.UnmarshalBinary` appends the decoded VLAN tags to the receiver's
existing chain without clearing it: on success the final chain is the stale tags
followed by a decoded-tag suffix that depends only on the buffer, so a receiver
holding k tags ends up with k+m tags. -/
theorem c10_vlan_append (f : Frame) (b : List Nat) (g : Frame)
    (h : Frame.UnmarshalBinary f b = .ok g) :
    ∃ ts, g.VLAN = f.VLAN ++ ts ∧
      ∀ (f' g' : Frame), Frame.UnmarshalBinary f' b = .ok g' →
        g'.VLAN = f'.VLAN ++ ts := by
  by_cases hlen : b.length < 14
  · rw [Frame.UnmarshalBinary, if_pos hlen] at h
    exact absurd h (by simp)
  · rcases vlanChain_uniform b (b.length - 14) 14 (be16 (b.getD 12 0) (b.getD 13 0)) rfl with
      ⟨ts, et', n', hts⟩ | ⟨ts, e', hts⟩ | hts
    · refine ⟨ts, ?_, ?_⟩
      · rw [Frame.UnmarshalBinary, if_neg hlen] at h
        dsimp only at h
        rw [hts] at h
        dsimp only at h
        split_ifs at h
        all_goals simp only [Outcome.ok.injEq] at h
        all_goals rw [← h]
      · intro f' g' h'
        rw [Frame.UnmarshalBinary, if_neg hlen] at h'
        dsimp only at h'
        rw [hts] at h'
        dsimp only at h'
        split_ifs at h'
        all_goals simp only [Outcome.ok.injEq] at h'
        all_goals rw [← h']
    · rw [Frame.UnmarshalBinary, if_neg hlen] at h
      dsimp only at h
      rw [hts] at h
      exact absurd h (by simp)
    · rw [Frame.UnmarshalBinary, if_neg hlen] at h
      dsimp only at h
      rw [hts] at h
      exact absurd h (by simp)

/-- Witness for C10: a receiver already holding one stale tag decodes a buffer
containing one wire tag and ends with both, stale first. -/
theorem c10_vlan_append_witness :
    ∃ ts, (Frame.mk [0, 0, 0, 0, 0, 0] [0, 0, 0, 0, 0, 0]
        [⟨1, true, 7⟩, ⟨1, false, 2⟩] 0x0800 (List.replicate 46 0)).VLAN =
      (Frame.mk [] [] [⟨1, true, 7⟩] 0 []).VLAN ++ ts ∧
      ∀ (f' g' : Frame),
        Frame.UnmarshalBinary f' [0, 0, 0, 0, 0, 0, 0, 0, 0, 0, 0, 0, 129, 0, 32, 2, 8, 0, 0, 0, 0, 0, 0, 0, 0, 0, 0, 0, 0, 0, 0, 0, 0, 0, 0, 0, 0, 0, 0, 0, 0, 0, 0, 0, 0, 0, 0, 0, 0, 0, 0, 0, 0, 0, 0, 0, 0, 0, 0, 0, 0, 0, 0, 0] = .ok g' →
          g'.VLAN = f'.VLAN ++ ts :=
  c10_vlan_append ⟨[], [], [⟨1, true, 7⟩], 0, []⟩ [0, 0, 0, 0, 0, 0, 0, 0, 0, 0, 0, 0, 129, 0, 32, 2, 8, 0, 0, 0, 0, 0, 0, 0, 0, 0, 0, 0, 0, 0, 0, 0, 0, 0, 0, 0, 0, 0, 0, 0, 0, 0, 0, 0, 0, 0, 0, 0, 0, 0, 0, 0, 0, 0, 0, 0, 0, 0, 0, 0, 0, 0, 0, 0]
    ⟨[0, 0, 0, 0, 0, 0], [0, 0, 0, 0, 0, 0], [⟨1, true, 7⟩, ⟨1, false, 2⟩], 0x0800,
     List.replicate 46 0⟩
    (by
      have e1 : (8194 : Nat) &&& 4095 = 2 := by decide
      have e2 : ((8194 : Nat) &&& 4096 != 0) = false := by decide
      simp [Frame.UnmarshalBinary, Frame.vlanChain, EtherTypeVLAN, be16,
        VLAN.UnmarshalBinary, VLAN.zero, VLANMax, minPayload, List.replicate, e1, e2])

/-! ## C1: round trip -/

/-- The 16-bit word a tag is packed into (arithmetic form of the marshalled
word, cf. `VLAN_MarshalBinary_ok`). -/
def tagWord (v : VLAN) : Nat :=
  8192 * (v.Priority % 8) + (if v.DropEligible then 4096 else 0) + v.ID

/-- The byte stream written for a VLAN chain: marker then body, per tag. -/
def tagsBytes : List VLAN → List Nat
  | [] => []
  | v :: vs => putUint16 EtherTypeVLAN ++ putUint16 (tagWord v) ++ tagsBytes vs

/-- The EtherType candidate seen at the start of a (remaining) chain. -/
def headET : List VLAN → Nat → Nat
  | [], et => et
  | _ :: _, _ => EtherTypeVLAN

/-- The byte stream as seen two bytes into the chain, once the current
candidate has been consumed: tag body, next candidate, and so on, ending with
the bytes after the terminal EtherType. -/
def afterET : List VLAN → Nat → List Nat → List Nat
  | [], _, rest => rest
  | v :: vs, et, rest => putUint16 (tagWord v) ++ putUint16 (headET vs et) ++ afterET vs et rest

theorem headET_lt (tags : List VLAN) (et : Nat) (h : et < 65536) :
    headET tags et < 65536 := by
  cases tags <;> simp [headET, EtherTypeVLAN] <;> omega

/-- Splitting the wire stream at the first candidate. -/
theorem stream_eq (tags : List VLAN) (et : Nat) (rest : List Nat) :
    tagsBytes tags ++ putUint16 et ++ rest =
      putUint16 (headET tags et) ++ afterET tags et rest := by
  induction tags with
  | nil => rfl
  | cons v vs ih =>
    simp only [tagsBytes, headET, afterET, List.append_assoc] at ih ⊢
    rw [ih]

/-- With all ids in range, the marshalling loop writes exactly the chain bytes. -/
theorem writeVLANs_ok (tags : List VLAN) (h : ∀ v ∈ tags, v.ID ≤ 4094) :
    writeVLANs tags = .ok (tagsBytes tags) := by
  induction tags with
  | nil => rfl
  | cons v vs ih =>
    have hv : v.read = .ok (putUint16 (tagWord v)) := by
      rw [VLAN.read, tagWord]
      exact VLAN_MarshalBinary_ok v (by have := h v (List.mem_cons_self v vs); omega)
    rw [writeVLANs, hv, ih (fun w hw => h w (List.mem_cons_of_mem v hw))]
    dsimp only
    rw [tagsBytes]

/-- Decoding the packed body of an in-range tag from the zero receiver yields
the tag back. -/
theorem vlan_decode_tag (v : VLAN) (hid : v.ID ≤ 4094) (hp : v.Priority ≤ 7) :
    VLAN.UnmarshalBinary VLAN.zero (putUint16 (tagWord v)) = (v, none) := by
  have h := VLAN_UnmarshalBinary_pack VLAN.zero v.Priority v.DropEligible v.ID
    (by omega) (by omega)
  rw [tagWord, Nat.mod_eq_of_lt (by omega)]
  exact h

theorem getD_drop (l : List Nat) (n i : Nat) :
    l.getD (n + i) 0 = (l.drop n).getD i 0 := by
  simp [List.getD_eq_getElem?_getD, List.getElem?_drop]

/-- Running the decode loop over the bytes the encoder wrote for a valid chain
appends exactly the encoded tags and stops at the terminal EtherType. -/
theorem vlanChain_encode (tags : List VLAN) :
    ∀ (b : List Nat) (n : Nat) (f : Frame) (et : Nat) (rest : List Nat),
      (∀ v ∈ tags, v.ID ≤ 4094 ∧ v.Priority ≤ 7) →
      et < 65536 → et ≠ EtherTypeVLAN →
      b.drop n = afterET tags et rest → n ≤ b.length →
      Frame.vlanChain b f (headET tags et) n =
        .cont { f with VLAN := f.VLAN ++ tags } et (n + 4 * tags.length) := by
  induction tags with
  | nil =>
    intro b n f et rest hv het hne hdrop hn
    simp only [headET]
    rw [vlanChain_not_marker _ _ _ _ hne]
    simp
  | cons v vs ih =>
    intro b n f et rest hv het hne hdrop hn
    have hlen : (b.drop n).length = 4 + (afterET vs et rest).length := by
      rw [hdrop]
      simp [afterET, putUint16]
      omega
    rw [List.length_drop] at hlen
    have h2 : ¬ (b.length - n < 2) := by omega
    simp only [headET]
    rw [Frame.vlanChain, if_pos rfl, dif_neg h2]
    have htake : (b.drop n).take 2 = putUint16 (tagWord v) := by
      rw [hdrop]
      simp only [afterET]
      have h2l : (putUint16 (tagWord v)).length = 2 := rfl
      exact List.take_left' h2l
    rw [htake, vlan_decode_tag v (hv v (List.mem_cons_self v vs)).1
      (hv v (List.mem_cons_self v vs)).2]
    dsimp only
    have h4 : ¬ (b.length < n + 4) := by omega
    rw [dif_neg h4]
    have hg2 : b.getD (n + 2) 0 = headET vs et / 256 % 256 := by
      rw [getD_drop, hdrop]
      simp [afterET, putUint16]
    have hg3 : b.getD (n + 3) 0 = headET vs et % 256 := by
      rw [getD_drop, hdrop]
      simp [afterET, putUint16]
    have hbe : be16 (b.getD (n + 2) 0) (b.getD (n + 3) 0) = headET vs et := by
      rw [hg2, hg3, be16]
      have := headET_lt vs et het
      omega
    rw [hbe]
    have hdd : (b.drop n).drop 4 = b.drop (n + 4) := by
      rw [List.drop_drop, Nat.add_comm]
    have hdrop' : b.drop (n + 4) = afterET vs et rest := by
      rw [← hdd, hdrop]
      simp [afterET, putUint16]
    rw [ih b (n + 4) { f with VLAN := f.VLAN ++ [v] } et rest
      (fun w hw => hv w (List.mem_cons_of_mem v hw)) het hne hdrop' (by omega)]
    have harith : n + 4 + 4 * vs.length = n + 4 * (v :: vs).length := by
      simp [List.length_cons]
      omega
    rw [harith]
    simp [List.append_assoc]

theorem copyFill_eq (n : Nat) (src : List Nat) (h : src.length = n) :
    copyFill n src = src := by
  rw [copyFill, List.take_of_length_le (by omega), h, Nat.sub_self]
  simp

theorem copyFill_pad (n : Nat) (src : List Nat) (h : src.length ≤ n) :
    copyFill n src = src ++ List.replicate (n - src.length) 0 := by
  rw [copyFill, List.take_of_length_le h]

theorem tagsBytes_length (tags : List VLAN) :
    (tagsBytes tags).length = 4 * tags.length := by
  induction tags with
  | nil => rfl
  | cons v vs ih =>
    simp [tagsBytes, putUint16, ih]
    omega

theorem afterET_drop (tags : List VLAN) (et : Nat) (rest : List Nat) :
    (afterET tags et rest).drop (4 * tags.length) = rest := by
  induction tags with
  | nil => simp [afterET]
  | cons v vs ih =>
    rw [show 4 * (v :: vs).length = 4 * vs.length + 4 by simp [List.length_cons]; ring]
    simp only [afterET, putUint16, List.cons_append, List.nil_append]
    rw [show 4 * vs.length + 4 = (((4 * vs.length + 1) + 1) + 1) + 1 by ring]
    simp only [List.drop_succ_cons]
    exact ih

/-- C1 amended: for every frame with 6-byte hardware addresses, a (uint16)
EtherType other than the VLAN marker 0x8100, and VLAN tags whose ids are in
[0, 4094] and priorities in [0, 7], decoding the output of `Frame.MarshalBinary`
with `Frame.UnmarshalBinary` into a fresh frame succeeds and yields the original
frame, with the payload zero-padded to 46 bytes when shorter than 46 bytes. -/
theorem c1_round_trip (f : Frame)
    (hd : f.Destination.length = 6) (hs : f.Source.length = 6)
    (het : f.EtherType < 65536) (hetv : f.EtherType ≠ EtherTypeVLAN)
    (htags : ∀ v ∈ f.VLAN, v.ID ≤ 4094 ∧ v.Priority ≤ 7) :
    ∃ buf, Frame.MarshalBinary f = (some buf, none) ∧
      Frame.UnmarshalBinary Frame.empty buf =
        .ok { f with Payload := f.Payload ++ List.replicate (46 - f.Payload.length) 0 } := by
  have hpl : f.Payload.length ≤ max f.Payload.length minPayload := Nat.le_max_left _ _
  have hpl46 : 46 ≤ max f.Payload.length minPayload := by
    simp [minPayload]
  refine ⟨f.Destination ++ (f.Source ++ (tagsBytes f.VLAN ++ (putUint16 f.EtherType ++
    copyFill (max f.Payload.length minPayload) f.Payload))), ?_, ?_⟩
  · rw [Frame.MarshalBinary, writeVLANs_ok f.VLAN (fun v hv => (htags v hv).1)]
    dsimp only
    rw [copyFill_eq 6 f.Destination hd, copyFill_eq 6 f.Source hs]
    simp [List.append_assoc]
  · have hlb : (f.Destination ++ (f.Source ++ (tagsBytes f.VLAN ++ (putUint16 f.EtherType ++
        copyFill (max f.Payload.length minPayload) f.Payload)))).length =
        14 + 4 * f.VLAN.length + max f.Payload.length minPayload := by
      simp [List.length_append, tagsBytes_length, putUint16, copyFill_length, hd, hs]
      omega
    rw [Frame.UnmarshalBinary, if_neg (by omega)]
    dsimp only
    have hd6 : (f.Destination ++ (f.Source ++ (tagsBytes f.VLAN ++ (putUint16 f.EtherType ++
        copyFill (max f.Payload.length minPayload) f.Payload)))).take 6 = f.Destination :=
      List.take_left' hd
    have hdr6 : (f.Destination ++ (f.Source ++ (tagsBytes f.VLAN ++ (putUint16 f.EtherType ++
        copyFill (max f.Payload.length minPayload) f.Payload)))).drop 6 =
        f.Source ++ (tagsBytes f.VLAN ++ (putUint16 f.EtherType ++
        copyFill (max f.Payload.length minPayload) f.Payload)) :=
      List.drop_left' hd
    have hs6 : (f.Source ++ (tagsBytes f.VLAN ++ (putUint16 f.EtherType ++
        copyFill (max f.Payload.length minPayload) f.Payload))).take 6 = f.Source :=
      List.take_left' hs
    have hd12 : (f.Destination ++ (f.Source ++ (tagsBytes f.VLAN ++ (putUint16 f.EtherType ++
        copyFill (max f.Payload.length minPayload) f.Payload)))).drop 12 =
        putUint16 (headET f.VLAN f.EtherType) ++
          afterET f.VLAN f.EtherType
            (copyFill (max f.Payload.length minPayload) f.Payload) := by
      rw [show (12 : Nat) = 6 + 6 from rfl, ← List.drop_drop, hdr6, List.drop_left' hs,
        ← List.append_assoc, stream_eq]
    have hg12 : (f.Destination ++ (f.Source ++ (tagsBytes f.VLAN ++ (putUint16 f.EtherType ++
        copyFill (max f.Payload.length minPayload) f.Payload)))).getD 12 0 =
        headET f.VLAN f.EtherType / 256 % 256 := by
      rw [show (12 : Nat) = 12 + 0 from rfl, getD_drop, hd12]
      simp [putUint16]
    have hg13 : (f.Destination ++ (f.Source ++ (tagsBytes f.VLAN ++ (putUint16 f.EtherType ++
        copyFill (max f.Payload.length minPayload) f.Payload)))).getD 13 0 =
        headET f.VLAN f.EtherType % 256 := by
      rw [show (13 : Nat) = 12 + 1 from rfl, getD_drop, hd12]
      simp [putUint16]
    have hbe0 : be16
        ((f.Destination ++ (f.Source ++ (tagsBytes f.VLAN ++ (putUint16 f.EtherType ++
          copyFill (max f.Payload.length minPayload) f.Payload)))).getD 12 0)
        ((f.Destination ++ (f.Source ++ (tagsBytes f.VLAN ++ (putUint16 f.EtherType ++
          copyFill (max f.Payload.length minPayload) f.Payload)))).getD 13 0) =
        headET f.VLAN f.EtherType := by
      rw [hg12, hg13, be16]
      have := headET_lt f.VLAN f.EtherType het
      omega
    have hd14 : (f.Destination ++ (f.Source ++ (tagsBytes f.VLAN ++ (putUint16 f.EtherType ++
        copyFill (max f.Payload.length minPayload) f.Payload)))).drop 14 =
        afterET f.VLAN f.EtherType
          (copyFill (max f.Payload.length minPayload) f.Payload) := by
      rw [show (14 : Nat) = 12 + 2 from rfl, ← List.drop_drop, hd12]
      simp [putUint16]
    rw [hd6, hdr6, hs6, hbe0,
      vlanChain_encode f.VLAN _ 14 _ f.EtherType _ htags het hetv hd14 (by omega)]
    dsimp only
    have hrem : (f.Destination ++ (f.Source ++ (tagsBytes f.VLAN ++ (putUint16 f.EtherType ++
        copyFill (max f.Payload.length minPayload) f.Payload)))).length -
        (14 + 4 * f.VLAN.length) = max f.Payload.length minPayload := by
      omega
    rw [if_neg (by split_ifs <;> omega)]
    have hdfin : (f.Destination ++ (f.Source ++ (tagsBytes f.VLAN ++ (putUint16 f.EtherType ++
        copyFill (max f.Payload.length minPayload) f.Payload)))).drop
        (14 + 4 * f.VLAN.length) =
        copyFill (max f.Payload.length minPayload) f.Payload := by
      rw [← List.drop_drop, hd14, afterET_drop]
    rw [hdfin, copyFill_pad _ _ hpl,
      show max f.Payload.length minPayload - f.Payload.length = 46 - f.Payload.length by
        simp [minPayload]; omega]
    simp [Frame.empty]

/-- C1 counterexample: three Go-representable frames whose VLAN-tag ids are all
in [0, 4094] but for which decode∘encode does not return the (padding-
normalised) original: an EtherType equal to the VLAN marker 0x8100 is re-parsed
as a tag chain, a tag priority of 8 wraps to 0 in `uint16(Priority) << 13`, and
a 5-byte destination address is zero-extended to 6 bytes. -/
theorem c1_counterexample :
    (Frame.MarshalBinary ⟨List.replicate 6 0, List.replicate 6 0, [], 0x8100, []⟩ =
        (some [0, 0, 0, 0, 0, 0, 0, 0, 0, 0, 0, 0, 129, 0, 0, 0, 0, 0, 0, 0, 0, 0, 0, 0, 0, 0, 0, 0, 0, 0, 0, 0, 0, 0, 0, 0, 0, 0, 0, 0, 0, 0, 0, 0, 0, 0, 0, 0, 0, 0, 0, 0, 0, 0, 0, 0, 0, 0, 0, 0], none) ∧
      Frame.UnmarshalBinary Frame.empty [0, 0, 0, 0, 0, 0, 0, 0, 0, 0, 0, 0, 129, 0, 0, 0, 0, 0, 0, 0, 0, 0, 0, 0, 0, 0, 0, 0, 0, 0, 0, 0, 0, 0, 0, 0, 0, 0, 0, 0, 0, 0, 0, 0, 0, 0, 0, 0, 0, 0, 0, 0, 0, 0, 0, 0, 0, 0, 0, 0] =
        .ok ⟨List.replicate 6 0, List.replicate 6 0, [⟨0, false, 0⟩], 0, List.replicate 42 0⟩ ∧
      (Frame.mk (List.replicate 6 0) (List.replicate 6 0) [⟨0, false, 0⟩] 0
          (List.replicate 42 0)) ≠
        ⟨List.replicate 6 0, List.replicate 6 0, [], 0x8100, List.replicate 46 0⟩) ∧
    (Frame.MarshalBinary ⟨List.replicate 6 0, List.replicate 6 0, [⟨8, false, 1⟩], 0x0800, []⟩ =
        (some [0, 0, 0, 0, 0, 0, 0, 0, 0, 0, 0, 0, 129, 0, 0, 1, 8, 0, 0, 0, 0, 0, 0, 0, 0, 0, 0, 0, 0, 0, 0, 0, 0, 0, 0, 0, 0, 0, 0, 0, 0, 0, 0, 0, 0, 0, 0, 0, 0, 0, 0, 0, 0, 0, 0, 0, 0, 0, 0, 0, 0, 0, 0, 0], none) ∧
      Frame.UnmarshalBinary Frame.empty [0, 0, 0, 0, 0, 0, 0, 0, 0, 0, 0, 0, 129, 0, 0, 1, 8, 0, 0, 0, 0, 0, 0, 0, 0, 0, 0, 0, 0, 0, 0, 0, 0, 0, 0, 0, 0, 0, 0, 0, 0, 0, 0, 0, 0, 0, 0, 0, 0, 0, 0, 0, 0, 0, 0, 0, 0, 0, 0, 0, 0, 0, 0, 0] =
        .ok ⟨List.replicate 6 0, List.replicate 6 0, [⟨0, false, 1⟩], 0x0800, List.replicate 46 0⟩ ∧
      (Frame.mk (List.replicate 6 0) (List.replicate 6 0) [⟨0, false, 1⟩] 0x0800
          (List.replicate 46 0)) ≠
        ⟨List.replicate 6 0, List.replicate 6 0, [⟨8, false, 1⟩], 0x0800, List.replicate 46 0⟩) ∧
    (Frame.MarshalBinary ⟨[1, 1, 1, 1, 1], List.replicate 6 0, [], 0x0800, []⟩ =
        (some [1, 1, 1, 1, 1, 0, 0, 0, 0, 0, 0, 0, 8, 0, 0, 0, 0, 0, 0, 0, 0, 0, 0, 0, 0, 0, 0, 0, 0, 0, 0, 0, 0, 0, 0, 0, 0, 0, 0, 0, 0, 0, 0, 0, 0, 0, 0, 0, 0, 0, 0, 0, 0, 0, 0, 0, 0, 0, 0, 0], none) ∧
      Frame.UnmarshalBinary Frame.empty [1, 1, 1, 1, 1, 0, 0, 0, 0, 0, 0, 0, 8, 0, 0, 0, 0, 0, 0, 0, 0, 0, 0, 0, 0, 0, 0, 0, 0, 0, 0, 0, 0, 0, 0, 0, 0, 0, 0, 0, 0, 0, 0, 0, 0, 0, 0, 0, 0, 0, 0, 0, 0, 0, 0, 0, 0, 0, 0, 0] =
        .ok ⟨[1, 1, 1, 1, 1, 0], List.replicate 6 0, [], 0x0800, List.replicate 46 0⟩ ∧
      (Frame.mk [1, 1, 1, 1, 1, 0] (List.replicate 6 0) [] 0x0800 (List.replicate 46 0)) ≠
        ⟨[1, 1, 1, 1, 1], List.replicate 6 0, [], 0x0800, List.replicate 46 0⟩) := by
  have e0a : (0 : Nat) &&& 4095 = 0 := by decide
  have e0b : ((0 : Nat) &&& 4096 != 0) = false := by decide
  have e1a : (1 : Nat) &&& 4095 = 1 := by decide
  have e1b : ((1 : Nat) &&& 4096 != 0) = false := by decide
  refine ⟨⟨by decide, ?_, by decide⟩, ⟨by decide, ?_, by decide⟩, ⟨by decide, ?_, by decide⟩⟩
  · simp [Frame.UnmarshalBinary, Frame.vlanChain, Frame.empty, EtherTypeVLAN, be16,
      VLAN.UnmarshalBinary, VLAN.zero, VLANMax, minPayload, List.replicate, e0a, e0b]
  · simp [Frame.UnmarshalBinary, Frame.vlanChain, Frame.empty, EtherTypeVLAN, be16,
      VLAN.UnmarshalBinary, VLAN.zero, VLANMax, minPayload, List.replicate, e1a, e1b]
  · simp [Frame.UnmarshalBinary, Frame.vlanChain, Frame.empty, EtherTypeVLAN, be16,
      VLAN.UnmarshalBinary, VLAN.zero, VLANMax, minPayload, List.replicate]

/-- Witness for C1 at a concrete frame with one tag and a 3-byte payload. -/
theorem c1_round_trip_witness :
    ∃ buf, Frame.MarshalBinary
        ⟨[1, 2, 3, 4, 5, 6], [7, 8, 9, 10, 11, 12], [⟨3, true, 5⟩], 0x0800, [1, 2, 3]⟩ =
        (some buf, none) ∧
      Frame.UnmarshalBinary Frame.empty buf =
        .ok { Frame.mk [1, 2, 3, 4, 5, 6] [7, 8, 9, 10, 11, 12] [⟨3, true, 5⟩] 0x0800
                 [1, 2, 3] with
               Payload := [1, 2, 3] ++ List.replicate (46 - [1, 2, 3].length) 0 } :=
  c1_round_trip ⟨[1, 2, 3, 4, 5, 6], [7, 8, 9, 10, 11, 12], [⟨3, true, 5⟩], 0x0800, [1, 2, 3]⟩
    (by decide) (by decide) (by decide) (by decide) (by decide)
